import Mathlib

set_option autoImplicit false

namespace Renewal

/-! Shallow embedding of src/Renewal_Agreements.py.

Dates are modelled as integers (epoch day numbers): Python date subtraction
yields the exact whole-day difference, which is all the code uses.
Spreadsheet cells are modelled as strings; pandas date parsing
(pd.to_datetime with dayfirst, errors coerce) is an external library and is
modelled as a parameter returning Option Int. -/

/-- Python str.strip removes these leading and trailing characters
(ASCII whitespace: space, tab, LF, CR, VT, FF). -/
def isPySpace (c : Char) : Bool :=
  c = ' ' || c = '\t' || c = '\n' || c = '\r' || c = Char.ofNat 11 || c = Char.ofNat 12

/-- ASCII lower-casing of a single character, as Python str.lower does on ASCII data. -/
def asciiLower (c : Char) : Char :=
  if 'A' ≤ c ∧ c ≤ 'Z' then Char.ofNat (c.toNat + 32) else c

/-- Lower-case a character list. -/
def lowerL (l : List Char) : List Char := l.map asciiLower

/-- Python str.lower on a string (ASCII model). -/
def lowerS (s : String) : String := ⟨lowerL s.data⟩

/-- Python str.strip on a character list: drop leading and trailing whitespace. -/
def pyStripL (l : List Char) : List Char :=
  ((l.dropWhile isPySpace).reverse.dropWhile isPySpace).reverse

/-- Python str.strip on a string. -/
def pyStrip (s : String) : String := ⟨pyStripL s.data⟩

/-- Python substring containment: tok in hay (both taken literally). -/
def strContains (hay tok : String) : Bool :=
  decide (tok.data <:+: hay.data)

/-- tok in str(c).lower(): the case-insensitive keyword test used on column names. -/
def containsTok (c tok : String) : Bool :=
  strContains (lowerS c) tok

/-- A loaded spreadsheet: the detected header gives the column names, each data
row is a list of cell strings aligned with the columns. -/
structure Sheet where
  columns : List String
  rows : List (List String)

/-- row.get(col): look the column name up and return the cell, empty if absent. -/
def rowGet (cols : List String) (row : List String) (col : String) : String :=
  match cols.findIdx? (fun c => c = col) with
  | some i => row.getD i ""
  | none => ""

/-- Column test for the expiry role (make_agreements_list, expiry_cols). -/
def isExpiryCol (c : String) : Bool :=
  ["expiry", "due", "end", "expires"].any (fun tok => containsTok c tok)

/-- expiry_cols: columns whose lowered name contains an expiry keyword. -/
def expiryCols (cols : List String) : List String := cols.filter isExpiryCol

/-- email_cols: columns whose lowered name contains "email". -/
def emailCols (cols : List String) : List String :=
  cols.filter (fun c => containsTok c "email")

/-- file_cols: name contains "file", or equals "name", or contains "file name". -/
def fileCols (cols : List String) : List String :=
  cols.filter (fun c =>
    containsTok c "file" || lowerS c = "name" || containsTok c "file name")

/-- path_cols: name contains "path". -/
def pathCols (cols : List String) : List String :=
  cols.filter (fun c => containsTok c "path")

/-- name_cols: name contains one of the name-role keywords. -/
def nameCols (cols : List String) : List String :=
  cols.filter (fun c =>
    ["name", "client", "contact", "customer", "person"].any (fun tok => containsTok c tok))

/-- The Agreement record built per spreadsheet row (the item dict). -/
structure Agreement where
  file : String
  expiry_date : Int
  path : String
  status : String
  email : String
  name : String
deriving DecidableEq

/-- str(row.get(col, "")).strip() for an optional role column. -/
def cellStr (cols : List String) (row : List String) (col? : Option String) : String :=
  match col? with
  | some c => pyStrip (rowGet cols row c)
  | none => ""

/-- The display-name precedence chain: file column, then name column, then
email column, then the literal fallback. -/
def displayNameOf (cols : List String) (row : List String)
    (file_col name_col email_col : Option String) : String :=
  let d1 := cellStr cols row file_col
  let d2 := if d1 = "" then cellStr cols row name_col else d1
  let d3 := if d2 = "" then cellStr cols row email_col else d2
  if d3 = "" then "Unnamed Agreement" else d3

/-- Build one Agreement from a row whose expiry parsed to expiry_dt.
recipientDefault models RECIPIENTS[0] (the RECIPIENT_DEFAULT configuration,
empty string when unset). -/
def buildAgreement (today : Int) (recipientDefault : String) (cols : List String)
    (email_col file_col path_col name_col : Option String)
    (row : List String) (expiry_dt : Int) : Agreement :=
  let email_val := cellStr cols row email_col
  let name_val := cellStr cols row name_col
  { file := displayNameOf cols row file_col name_col email_col
    expiry_date := expiry_dt
    path := cellStr cols row path_col
    status := if expiry_dt = today then "EXPIRES TODAY" else "Upcoming"
    email := if email_val ≠ "" then email_val
             else (if recipientDefault ≠ "" then recipientDefault else "")
    name := name_val }

/-- Loop body of make_agreements_list: parse the expiry cell; on failure the
row is skipped (none), otherwise an Agreement is produced. -/
def extractRow (parseDate : String → Option Int) (today : Int) (recipientDefault : String)
    (cols : List String) (expiry_col : String)
    (email_col file_col path_col name_col : Option String)
    (row : List String) : Option Agreement :=
  match parseDate (rowGet cols row expiry_col) with
  | none => none
  | some expiry_dt =>
      some (buildAgreement today recipientDefault cols email_col file_col path_col name_col
        row expiry_dt)

/-- make_agreements_list: pick role columns (first match in original order),
fail when no expiry-like column exists, otherwise build one Agreement per row
whose expiry cell parses. -/
def makeAgreementsList (parseDate : String → Option Int) (today : Int)
    (recipientDefault : String) (df : Sheet) : Except String (List Agreement) :=
  let email_col := (emailCols df.columns).head?
  let file_col := (fileCols df.columns).head?
  let path_col := (pathCols df.columns).head?
  let name_col := (nameCols df.columns).head?
  match (expiryCols df.columns).head? with
  | none => Except.error "No expiry-like column found."
  | some expiry_col =>
      Except.ok (df.rows.filterMap
        (extractRow parseDate today recipientDefault df.columns expiry_col
          email_col file_col path_col name_col))

/-- The fixed token set scanned for in detect_header_and_load. -/
def searchTokens : List String :=
  ["expiry", "expiry date", "email", "name", "file", "due", "end", "expires",
   "expires on", "due date", "client", "contact"]

/-- combined: cells stripped, lowered and joined with spaces. -/
def rowCombined (row : List String) : String :=
  String.intercalate " " (row.map (fun x => lowerS (pyStrip x)))

/-- A row is header-like when the joined string contains any search token. -/
def isHeaderRow (row : List String) : Bool :=
  searchTokens.any (fun tok => strContains (rowCombined row) tok)

/-- The scan loop: index of the first header-like row, if any. -/
def scanHeader : List (List String) → Option Nat
  | [] => none
  | r :: rest => if isHeaderRow r then some 0 else (scanHeader rest).map (· + 1)

/-- detect_header_and_load header choice: scan at most 50 leading rows and
return the first header-like index, else fall back to 0. -/
def detectHeaderIdx (raw : List (List String)) : Nat :=
  match scanHeader (raw.take 50) with
  | some i => i
  | none => 0

/-- Kind of notification the dispatch step attempts. -/
inductive NotifKind where
  | preReminder (days_left : Int)
  | dueToday
deriving DecidableEq

/-- Whether the SMTP send inside the try block raised or succeeded; failures
are caught and logged inside the send helpers, never propagated. -/
inductive SendOutcome where
  | sent
  | failedLogged
deriving DecidableEq

/-- One send attempt, with the outcome the send oracle assigned it. -/
structure Attempt where
  agreement : Agreement
  kind : NotifKind
  outcome : SendOutcome
deriving DecidableEq

/-- send_renewal_reminder: attempts the pre-reminder; any exception from
send_email is caught and logged (failedLogged), so the caller always resumes. -/
def sendRenewalReminder (ok : Agreement → NotifKind → Bool) (a : Agreement)
    (days_left : Int) : Attempt :=
  { agreement := a
    kind := NotifKind.preReminder days_left
    outcome := if ok a (NotifKind.preReminder days_left)
               then SendOutcome.sent else SendOutcome.failedLogged }

/-- send_hourly_alert: attempts the due-today alert; exceptions caught and
logged the same way. -/
def sendHourlyAlert (ok : Agreement → NotifKind → Bool) (a : Agreement) : Attempt :=
  { agreement := a
    kind := NotifKind.dueToday
    outcome := if ok a NotifKind.dueToday
               then SendOutcome.sent else SendOutcome.failedLogged }

/-- First loop body of run_reminders_and_alerts: send a pre-reminder when
1 <= days_left <= 5, otherwise nothing. -/
def reminderAttempt? (ok : Agreement → NotifKind → Bool) (today : Int)
    (a : Agreement) : Option Attempt :=
  let days_left := a.expiry_date - today
  if 1 ≤ days_left ∧ days_left ≤ 5 then some (sendRenewalReminder ok a days_left) else none

/-- run_reminders_and_alerts: first pass sends pre-reminders, second pass
collects agreements expiring today and sends each a one-shot alert. The
returned list is the trace of send attempts in program order. -/
def runRemindersAndAlerts (ok : Agreement → NotifKind → Bool)
    (agreements : List Agreement) (today : Int) : List Attempt :=
  let reminders := agreements.filterMap (reminderAttempt? ok today)
  let todays := agreements.filter (fun a => a.expiry_date = today)
  reminders ++ todays.map (sendHourlyAlert ok)

/-- Modelled from the spec: the Reminder Classifier bucket (section 4.5).
The classifier is inline in run_reminders_and_alerts in the source; the
dedup-ledger pipeline of later iterations consumes it as a pure function. -/
inductive Bucket where
  | NONE
  | PRE_REMINDER (days_left : Int)
  | DUE_TODAY
deriving DecidableEq

/-- Modelled from the spec: classify(expiry_date, today) over
days_left = expiry_date - today (section 4.5). -/
def classify (expiry_date today : Int) : Bucket :=
  let days_left := expiry_date - today
  if days_left < 0 then Bucket.NONE
  else if days_left = 0 then Bucket.DUE_TODAY
  else if days_left ≤ 5 then Bucket.PRE_REMINDER days_left
  else Bucket.NONE

/-- Modelled from the spec: the stable bucket tag used in ledger keys
(one tag per days_left value 1-5, one due-today tag; section 4.6). -/
def bucketTag : Bucket → Option String
  | Bucket.NONE => none
  | Bucket.PRE_REMINDER d => some ("pre_" ++ toString d)
  | Bucket.DUE_TODAY => some "due_today"

/-- A ledger key: (recipient email, expiry date, bucket tag). -/
abbrev LedgerKey := String × Int × String

/-- Modelled from the spec: the durable key-to-boolean store, as the set of
keys whose sent-flag is true (section 4.6). -/
abbrev Ledger := List LedgerKey

/-- Modelled from the spec: already_sent(key). -/
def alreadySent (L : Ledger) (k : LedgerKey) : Bool :=
  decide (k ∈ L)

/-- Modelled from the spec: mark_sent(key). -/
def markSent (L : Ledger) (k : LedgerKey) : Ledger := k :: L

/-- Modelled from the spec: the full pipeline dispatch of the later
iterations with the Dedup Ledger (sections 2 and 4.6), which is not part of
the single source file under src/. For each agreement in order: classify it;
when the bucket is not NONE build the ledger key, check already_sent before
any send attempt, attempt the send when unsent, and mark_sent exactly on a
successful send. ok is the transport oracle; the trace records each
attempted key with its outcome. -/
def runPipelineWithLedger (ok : LedgerKey → Bool) :
    List Agreement → Int → Ledger → Ledger × List (LedgerKey × SendOutcome)
  | [], _, L => (L, [])
  | a :: rest, today, L =>
    match bucketTag (classify a.expiry_date today) with
    | none => runPipelineWithLedger ok rest today L
    | some tag =>
      let k : LedgerKey := (a.email, a.expiry_date, tag)
      if alreadySent L k then runPipelineWithLedger ok rest today L
      else
        let L1 := if ok k then markSent L k else L
        let res := runPipelineWithLedger ok rest today L1
        (res.1, (k, if ok k then SendOutcome.sent else SendOutcome.failedLogged) :: res.2)

/-! Helper lemmas. -/

theorem reminderAttempt?_eq (ok : Agreement → NotifKind → Bool) (today : Int) (a : Agreement) :
    reminderAttempt? ok today a =
      if 1 ≤ a.expiry_date - today ∧ a.expiry_date - today ≤ 5
      then some (sendRenewalReminder ok a (a.expiry_date - today)) else none := rfl

theorem agreement_of_reminderAttempt? {ok : Agreement → NotifKind → Bool} {today : Int}
    {a : Agreement} {att : Attempt} (h : reminderAttempt? ok today a = some att) :
    att.agreement = a := by
  rw [reminderAttempt?_eq] at h
  split at h
  · cases h
    rfl
  · cases h

/-- A concrete always-succeeding transport oracle, for witnesses. -/
def okT : Agreement → NotifKind → Bool := fun _ _ => true

/-- A concrete always-failing transport oracle, for witnesses. -/
def okF : Agreement → NotifKind → Bool := fun _ _ => false

/-- A concrete agreement with a given expiry day number, for witnesses. -/
def agD (d : Int) : Agreement :=
  { file := "f", expiry_date := d, path := "", status := "s", email := "e@x", name := "n" }

/-- C1: for an agreement with days_left = expiry_date - today, the run
attempts nothing when days_left is negative, exactly the due-today alert when
days_left = 0, exactly the pre-reminder carrying days_left when
1 <= days_left <= 5, and nothing when days_left > 5. -/
theorem reminder_bucket_boundaries (ok : Agreement → NotifKind → Bool)
    (a : Agreement) (today : Int) :
    (a.expiry_date - today < 0 → runRemindersAndAlerts ok [a] today = [])
  ∧ (a.expiry_date - today = 0 →
      runRemindersAndAlerts ok [a] today = [sendHourlyAlert ok a])
  ∧ (1 ≤ a.expiry_date - today ∧ a.expiry_date - today ≤ 5 →
      runRemindersAndAlerts ok [a] today = [sendRenewalReminder ok a (a.expiry_date - today)])
  ∧ (5 < a.expiry_date - today → runRemindersAndAlerts ok [a] today = []) := by
  refine ⟨fun h => ?_, fun h => ?_, fun h => ?_, fun h => ?_⟩
  · have h1 : ¬ (1 ≤ a.expiry_date - today ∧ a.expiry_date - today ≤ 5) := by omega
    have h2 : ¬ (a.expiry_date = today) := by omega
    simp [runRemindersAndAlerts, reminderAttempt?_eq, h1, h2]
    omega
  · have h1 : ¬ (1 ≤ a.expiry_date - today ∧ a.expiry_date - today ≤ 5) := by omega
    have h2 : a.expiry_date = today := by omega
    simp [runRemindersAndAlerts, reminderAttempt?_eq, h1, h2]
  · have h2 : ¬ (a.expiry_date = today) := by omega
    simp [runRemindersAndAlerts, reminderAttempt?_eq, h, h2]
  · have h1 : ¬ (1 ≤ a.expiry_date - today ∧ a.expiry_date - today ≤ 5) := by omega
    have h2 : ¬ (a.expiry_date = today) := by omega
    simp [runRemindersAndAlerts, reminderAttempt?_eq, h1, h2]
    omega

/-- C1 witness: the boundary cases days_left = -1, 0, 5, 6 evaluated. -/
theorem reminder_bucket_boundaries_witness :
    runRemindersAndAlerts okT [agD (-1)] 0 = []
  ∧ runRemindersAndAlerts okT [agD 0] 0 = [sendHourlyAlert okT (agD 0)]
  ∧ runRemindersAndAlerts okT [agD 5] 0 = [sendRenewalReminder okT (agD 5) 5]
  ∧ runRemindersAndAlerts okT [agD 6] 0 = [] :=
  ⟨(reminder_bucket_boundaries okT (agD (-1)) 0).1 (by decide),
   (reminder_bucket_boundaries okT (agD 0) 0).2.1 (by decide),
   (reminder_bucket_boundaries okT (agD 5) 0).2.2.1 (by decide),
   (reminder_bucket_boundaries okT (agD 6) 0).2.2.2 (by decide)⟩

theorem map_proj_filterMap (ok : Agreement → NotifKind → Bool) (today : Int)
    (ags : List Agreement) :
    (ags.filterMap (reminderAttempt? ok today)).map (fun att => (att.agreement, att.kind))
      = ags.filterMap (fun a =>
          if 1 ≤ a.expiry_date - today ∧ a.expiry_date - today ≤ 5
          then some (a, NotifKind.preReminder (a.expiry_date - today)) else none) := by
  induction ags with
  | nil => rfl
  | cons x t ih =>
    by_cases hx : 1 ≤ x.expiry_date - today ∧ x.expiry_date - today ≤ 5
    · simp only [List.filterMap_cons, reminderAttempt?_eq, if_pos hx, List.map_cons, ih]
      rfl
    · simp only [List.filterMap_cons, reminderAttempt?_eq, if_neg hx, ih]

/-- C9: a failing transport never aborts the dispatch loop. The sequence of
attempts, identified by agreement and kind, is the same under any two
transport oracles (in particular the all-success one), and every agreement
whose bucket requires a send has its attempt in the trace regardless of how
other sends fare. -/
theorem send_failure_isolated (ok ok2 : Agreement → NotifKind → Bool)
    (ags : List Agreement) (today : Int) :
    ((runRemindersAndAlerts ok ags today).map (fun att => (att.agreement, att.kind))
      = (runRemindersAndAlerts ok2 ags today).map (fun att => (att.agreement, att.kind)))
  ∧ (∀ a ∈ ags, 1 ≤ a.expiry_date - today → a.expiry_date - today ≤ 5 →
      sendRenewalReminder ok a (a.expiry_date - today) ∈ runRemindersAndAlerts ok ags today)
  ∧ (∀ a ∈ ags, a.expiry_date = today →
      sendHourlyAlert ok a ∈ runRemindersAndAlerts ok ags today) := by
  refine ⟨?_, fun a ha h1 h5 => ?_, fun a ha h0 => ?_⟩
  · simp only [runRemindersAndAlerts, List.map_append, map_proj_filterMap, List.map_map]
    rfl
  · apply List.mem_append_left
    exact List.mem_filterMap.2 ⟨a, ha, by rw [reminderAttempt?_eq]; simp [h1, h5]⟩
  · apply List.mem_append_right
    exact List.mem_map.2 ⟨a, List.mem_filter.2 ⟨ha, by simp [h0]⟩, rfl⟩

/-- C9 witness: with an all-failing transport, both the pre-reminder for one
agreement and the due-today alert for the next are still attempted. -/
theorem send_failure_isolated_witness :
    sendRenewalReminder okF (agD 3) 3 ∈ runRemindersAndAlerts okF [agD 3, agD 0] 0
  ∧ sendHourlyAlert okF (agD 0) ∈ runRemindersAndAlerts okF [agD 3, agD 0] 0 :=
  ⟨(send_failure_isolated okF okT [agD 3, agD 0] 0).2.1 (agD 3) (by decide) (by decide)
      (by decide),
   (send_failure_isolated okF okT [agD 3, agD 0] 0).2.2 (agD 0) (by decide) (by decide)⟩

theorem agreement_sendHourlyAlert (ok : Agreement → NotifKind → Bool) (x : Agreement) :
    (sendHourlyAlert ok x).agreement = x := rfl

theorem agreement_sendRenewalReminder (ok : Agreement → NotifKind → Bool) (x : Agreement)
    (d : Int) : (sendRenewalReminder ok x d).agreement = x := rfl

theorem filter_reminders_of_not_mem (ok : Agreement → NotifKind → Bool) (today : Int)
    (a : Agreement) (l : List Agreement) (hl : a ∉ l) :
    (l.filterMap (reminderAttempt? ok today)).filter (fun att => att.agreement = a) = [] := by
  induction l with
  | nil => rfl
  | cons x t ih =>
    have hxa : ¬ (x = a) := fun e => hl (e ▸ List.mem_cons_self x t)
    have hat : a ∉ t := fun ht => hl (List.mem_cons_of_mem x ht)
    simp only [List.filterMap_cons]
    cases hr : reminderAttempt? ok today x with
    | none => exact ih hat
    | some att =>
      have hag : att.agreement = x := agreement_of_reminderAttempt? hr
      simp [List.filter_cons, hag, hxa, ih hat]

theorem filter_alerts_of_not_mem (ok : Agreement → NotifKind → Bool) (today : Int)
    (a : Agreement) (l : List Agreement) (hl : a ∉ l) :
    ((l.filter (fun x => x.expiry_date = today)).map (sendHourlyAlert ok)).filter
      (fun att => att.agreement = a) = [] := by
  induction l with
  | nil => rfl
  | cons x t ih =>
    have hxa : ¬ (x = a) := fun e => hl (e ▸ List.mem_cons_self x t)
    have hat : a ∉ t := fun ht => hl (List.mem_cons_of_mem x ht)
    by_cases hx : x.expiry_date = today
    · simp [List.filter_cons, hx, agreement_sendHourlyAlert, hxa, ih hat]
    · simp [List.filter_cons, hx, ih hat]

theorem filter_reminders_of_mem (ok : Agreement → NotifKind → Bool) (today : Int)
    (a : Agreement) (l : List Agreement) (hnd : l.Nodup) (ha : a ∈ l) :
    (l.filterMap (reminderAttempt? ok today)).filter (fun att => att.agreement = a)
      = (match reminderAttempt? ok today a with
         | some att => [att]
         | none => []) := by
  induction l with
  | nil => cases ha
  | cons x t ih =>
    rcases List.nodup_cons.1 hnd with ⟨hxt, hndt⟩
    rcases List.mem_cons.1 ha with h | h
    · subst h
      simp only [List.filterMap_cons]
      cases hr : reminderAttempt? ok today a with
      | none => exact filter_reminders_of_not_mem ok today a t hxt
      | some att =>
        have hag : att.agreement = a := agreement_of_reminderAttempt? hr
        simp [List.filter_cons, hag, filter_reminders_of_not_mem ok today a t hxt]
    · have hxa : ¬ (x = a) := fun e => hxt (e ▸ h)
      simp only [List.filterMap_cons]
      cases hr : reminderAttempt? ok today x with
      | none => exact ih hndt h
      | some att =>
        have hag : att.agreement = x := agreement_of_reminderAttempt? hr
        simp [List.filter_cons, hag, hxa, ih hndt h]

theorem filter_alerts_of_mem (ok : Agreement → NotifKind → Bool) (today : Int)
    (a : Agreement) (l : List Agreement) (hnd : l.Nodup) (ha : a ∈ l) :
    ((l.filter (fun x => x.expiry_date = today)).map (sendHourlyAlert ok)).filter
      (fun att => att.agreement = a)
      = (if a.expiry_date = today then [sendHourlyAlert ok a] else []) := by
  induction l with
  | nil => cases ha
  | cons x t ih =>
    rcases List.nodup_cons.1 hnd with ⟨hxt, hndt⟩
    rcases List.mem_cons.1 ha with h | h
    · subst h
      by_cases hx : a.expiry_date = today
      · simp [List.filter_cons, hx, agreement_sendHourlyAlert,
          filter_alerts_of_not_mem ok today a t hxt]
      · simp [List.filter_cons, hx, filter_alerts_of_not_mem ok today a t hxt]
    · have hxa : ¬ (x = a) := fun e => hxt (e ▸ h)
      by_cases hx : x.expiry_date = today
      · simp [List.filter_cons, hx, agreement_sendHourlyAlert, hxa, ih hndt h]
      · simp [List.filter_cons, hx, ih hndt h]

/-- C10: in a single run over distinct agreements, each agreement has at most
one send attempt in the trace: exactly the due-today alert when
days_left = 0, exactly the pre-reminder when 1 <= days_left <= 5, and never
attempts of both kinds. -/
theorem single_attempt_per_agreement (ok : Agreement → NotifKind → Bool)
    (ags : List Agreement) (today : Int) (hnd : ags.Nodup) (a : Agreement) (ha : a ∈ ags) :
    ((runRemindersAndAlerts ok ags today).filter (fun att => att.agreement = a)).length ≤ 1
  ∧ (a.expiry_date - today = 0 →
      (runRemindersAndAlerts ok ags today).filter (fun att => att.agreement = a)
        = [sendHourlyAlert ok a])
  ∧ (1 ≤ a.expiry_date - today ∧ a.expiry_date - today ≤ 5 →
      (runRemindersAndAlerts ok ags today).filter (fun att => att.agreement = a)
        = [sendRenewalReminder ok a (a.expiry_date - today)])
  ∧ (∀ att1 ∈ (runRemindersAndAlerts ok ags today).filter (fun att => att.agreement = a),
      ∀ att2 ∈ (runRemindersAndAlerts ok ags today).filter (fun att => att.agreement = a),
        att1.kind = att2.kind) := by
  have hch : (runRemindersAndAlerts ok ags today).filter (fun att => att.agreement = a)
      = (match reminderAttempt? ok today a with
         | some att => [att]
         | none => [])
        ++ (if a.expiry_date = today then [sendHourlyAlert ok a] else []) := by
    simp only [runRemindersAndAlerts, List.filter_append,
      filter_reminders_of_mem ok today a ags hnd ha,
      filter_alerts_of_mem ok today a ags hnd ha]
  rw [reminderAttempt?_eq] at hch
  by_cases hq : 1 ≤ a.expiry_date - today ∧ a.expiry_date - today ≤ 5
  · have h0 : ¬ (a.expiry_date = today) := by omega
    rw [if_pos hq, if_neg h0] at hch
    simp only [List.append_nil] at hch
    refine ⟨by simp [hch], fun h => absurd h (by omega), fun _ => hch, ?_⟩
    intro att1 h1 att2 h2
    rw [hch] at h1 h2
    simp only [List.mem_singleton] at h1 h2
    rw [h1, h2]
  · by_cases h0 : a.expiry_date = today
    · rw [if_neg hq, if_pos h0] at hch
      simp only [List.nil_append] at hch
      refine ⟨by simp [hch], fun _ => hch, fun h => absurd h hq, ?_⟩
      intro att1 h1 att2 h2
      rw [hch] at h1 h2
      simp only [List.mem_singleton] at h1 h2
      rw [h1, h2]
    · rw [if_neg hq, if_neg h0] at hch
      simp only [List.append_nil] at hch
      refine ⟨by simp [hch], fun h => absurd (by omega : a.expiry_date = today) h0,
        fun h => absurd h hq, ?_⟩
      intro att1 h1 att2 h2
      rw [hch] at h1 h2
      cases h1

/-- C10 witness: for the due-today agreement of a two-agreement run, the
trace holds exactly its one alert. -/
theorem single_attempt_per_agreement_witness :
    (runRemindersAndAlerts okT [agD 3, agD 0] 0).filter (fun att => att.agreement = agD 0)
      = [sendHourlyAlert okT (agD 0)] :=
  (single_attempt_per_agreement okT [agD 3, agD 0] 0 (by decide) (agD 0) (by decide)).2.1
    (by decide)

theorem ledger_mono (ok : LedgerKey → Bool) :
    ∀ (ags : List Agreement) (today : Int) (L : Ledger) (k : LedgerKey),
      k ∈ L → k ∈ (runPipelineWithLedger ok ags today L).1 := by
  intro ags
  induction ags with
  | nil => exact fun today L k hk => hk
  | cons a rest ih =>
    intro today L k hk
    simp only [runPipelineWithLedger]
    cases hb : bucketTag (classify a.expiry_date today) with
    | none => exact ih today L k hk
    | some tag =>
      by_cases hs : alreadySent L (a.email, a.expiry_date, tag)
      · simp only [if_pos hs]
        exact ih today L k hk
      · simp only [if_neg hs]
        by_cases hok : ok (a.email, a.expiry_date, tag)
        · simp only [if_pos hok]
          exact ih today _ k (List.mem_cons_of_mem _ hk)
        · simp only [if_neg hok]
          exact ih today L k hk

theorem attempt_unsent (ok : LedgerKey → Bool) :
    ∀ (ags : List Agreement) (today : Int) (L : Ledger) (k : LedgerKey) (o : SendOutcome),
      (k, o) ∈ (runPipelineWithLedger ok ags today L).2 → k ∉ L := by
  intro ags
  induction ags with
  | nil => intro today L k o h; cases h
  | cons a rest ih =>
    intro today L k o h
    simp only [runPipelineWithLedger] at h
    cases hb : bucketTag (classify a.expiry_date today) with
    | none =>
      rw [hb] at h
      exact ih today L k o h
    | some tag =>
      rw [hb] at h
      dsimp only at h
      by_cases hs : alreadySent L (a.email, a.expiry_date, tag)
      · rw [if_pos hs] at h
        exact ih today L k o h
      · rw [if_neg hs] at h
        simp only [List.mem_cons] at h
        rcases h with h | h
        · have hk : k = (a.email, a.expiry_date, tag) := congrArg Prod.fst h
          subst hk
          intro hmem
          exact hs (by simpa [alreadySent] using hmem)
        · have hnot := ih today _ k o h
          intro hmem
          apply hnot
          by_cases hok : ok (a.email, a.expiry_date, tag)
          · simp only [if_pos hok]
            exact List.mem_cons_of_mem _ hmem
          · simp only [if_neg hok]
            exact hmem

theorem sent_marked (ok : LedgerKey → Bool) :
    ∀ (ags : List Agreement) (today : Int) (L : Ledger) (k : LedgerKey),
      (k, SendOutcome.sent) ∈ (runPipelineWithLedger ok ags today L).2 →
      k ∈ (runPipelineWithLedger ok ags today L).1 := by
  intro ags
  induction ags with
  | nil => intro today L k h; cases h
  | cons a rest ih =>
    intro today L k h
    simp only [runPipelineWithLedger] at h ⊢
    cases hb : bucketTag (classify a.expiry_date today) with
    | none =>
      rw [hb] at h
      exact ih today L k h
    | some tag =>
      rw [hb] at h
      dsimp only at h ⊢
      by_cases hs : alreadySent L (a.email, a.expiry_date, tag)
      · rw [if_pos hs] at h ⊢
        exact ih today L k h
      · rw [if_neg hs] at h ⊢
        simp only [List.mem_cons] at h
        rcases h with h | h
        · have hk : k = (a.email, a.expiry_date, tag) := congrArg Prod.fst h
          have hsent := congrArg Prod.snd h
          simp only at hsent
          by_cases hok : ok (a.email, a.expiry_date, tag)
          · rw [if_pos hok]
            rw [hk]
            exact ledger_mono ok rest today _ _ (List.mem_cons_self _ _)
          · rw [if_neg hok] at hsent
            cases hsent
        · exact ih today _ k h

/-- C2: with the spec-modelled Dedup Ledger, every key whose send succeeded
in the first run is marked sent in the resulting ledger, and a second run of
the pipeline over the unchanged agreement list starting from that ledger
attempts no notification for any key already marked sent. -/
theorem ledger_idempotence (ok1 ok2 : LedgerKey → Bool) (ags : List Agreement)
    (today : Int) (L0 : Ledger) :
    (∀ k : LedgerKey, (k, SendOutcome.sent) ∈ (runPipelineWithLedger ok1 ags today L0).2 →
        alreadySent (runPipelineWithLedger ok1 ags today L0).1 k = true)
  ∧ (∀ k : LedgerKey,
        alreadySent (runPipelineWithLedger ok1 ags today L0).1 k = true →
        ∀ att ∈ (runPipelineWithLedger ok2 ags today
            (runPipelineWithLedger ok1 ags today L0).1).2, att.1 ≠ k) := by
  constructor
  · intro k hk
    simp only [alreadySent, decide_eq_true_eq]
    exact sent_marked ok1 ags today L0 k hk
  · intro k hk att hatt he
    have hatt1 : (att.1, att.2) ∈ (runPipelineWithLedger ok2 ags today
        (runPipelineWithLedger ok1 ags today L0).1).2 := by
      rw [Prod.mk.eta]
      exact hatt
    have h1 := attempt_unsent ok2 ags today _ att.1 att.2 hatt1
    apply h1
    rw [he]
    exact of_decide_eq_true hk

/-- A concrete always-succeeding ledger transport oracle, for the witness. -/
def okL : LedgerKey → Bool := fun _ => true

/-- C2 witness: one due-today agreement, empty starting ledger; after the
first run its key is marked sent. -/
theorem ledger_idempotence_witness :
    alreadySent (runPipelineWithLedger okL [agD 0] 0 []).1 ("e@x", 0, "due_today") = true :=
  (ledger_idempotence okL okL [agD 0] 0 []).1 ("e@x", 0, "due_today") (by decide)

theorem makeAgreementsList_eq_ok (p : String → Option Int) (today : Int) (rec : String)
    (df : Sheet) (c : String) (hc : (expiryCols df.columns).head? = some c) :
    makeAgreementsList p today rec df = Except.ok (df.rows.filterMap
      (extractRow p today rec df.columns c (emailCols df.columns).head?
        (fileCols df.columns).head? (pathCols df.columns).head?
        (nameCols df.columns).head?)) := by
  unfold makeAgreementsList
  rw [hc]

theorem makeAgreementsList_eq_error (p : String → Option Int) (today : Int) (rec : String)
    (df : Sheet) (hc : (expiryCols df.columns).head? = none) :
    makeAgreementsList p today rec df = Except.error "No expiry-like column found." := by
  unfold makeAgreementsList
  rw [hc]

theorem email_buildAgreement (today : Int) (rec : String) (cols : List String)
    (e f pa n : Option String) (row : List String) (dt : Int) :
    (buildAgreement today rec cols e f pa n row dt).email
      = if cellStr cols row e ≠ "" then cellStr cols row e
        else (if rec ≠ "" then rec else "") := rfl

theorem expiry_buildAgreement (today : Int) (rec : String) (cols : List String)
    (e f pa n : Option String) (row : List String) (dt : Int) :
    (buildAgreement today rec cols e f pa n row dt).expiry_date = dt := rfl

/-- C3 (amended): when the configured default recipient is non-empty, every
extracted Agreement has a non-empty email equal to the trimmed role-mapped
cell when that is non-empty and to the default recipient otherwise. -/
theorem email_default_fallback (p : String → Option Int) (today : Int) (rec : String)
    (df : Sheet) (ags : List Agreement) (hrec : rec ≠ "")
    (h : makeAgreementsList p today rec df = Except.ok ags) :
    ∀ a ∈ ags, a.email ≠ "" ∧ ∃ row ∈ df.rows,
      ((cellStr df.columns row (emailCols df.columns).head? ≠ "" ∧
          a.email = cellStr df.columns row (emailCols df.columns).head?) ∨
       (cellStr df.columns row (emailCols df.columns).head? = "" ∧ a.email = rec)) := by
  cases hc : (expiryCols df.columns).head? with
  | none =>
    rw [makeAgreementsList_eq_error p today rec df hc] at h
    cases h
  | some c =>
    rw [makeAgreementsList_eq_ok p today rec df c hc] at h
    injection h with hags
    subst hags
    intro a ha
    obtain ⟨row, hrow, hex⟩ := List.mem_filterMap.1 ha
    unfold extractRow at hex
    cases hp : p (rowGet df.columns row c) with
    | none => rw [hp] at hex; cases hex
    | some dt =>
      rw [hp] at hex
      injection hex with hba
      by_cases hv : cellStr df.columns row (emailCols df.columns).head? = ""
      · have he : a.email = rec := by
          rw [← hba, email_buildAgreement, if_neg (by simpa using hv), if_pos hrec]
        exact ⟨he ▸ hrec, row, hrow, Or.inr ⟨hv, he⟩⟩
      · have he : a.email = cellStr df.columns row (emailCols df.columns).head? := by
          rw [← hba, email_buildAgreement, if_pos hv]
        exact ⟨he ▸ hv, row, hrow, Or.inl ⟨hv, he⟩⟩

/-- Concrete date parser for the demonstration sheets. -/
def pDemo : String → Option Int := fun s => if s = "01-06-2024" then some 19875 else none

/-- A sheet with an email column whose cell is empty. -/
def sheetDemo : Sheet := ⟨["Email", "Due Date"], [["", "01-06-2024"]]⟩

/-- The Agreement the code extracts from sheetDemo with empty default recipient. -/
def agDemo : Agreement :=
  { file := "Unnamed Agreement", expiry_date := 19875, path := ""
    status := "EXPIRES TODAY", email := "", name := "" }

/-- C3 counterexample: with the default configuration (RECIPIENT_DEFAULT
unset, so the default recipient is the empty string) and an empty email
cell, the extracted Agreement has email equal to the empty string. -/
theorem email_empty_counterexample :
    makeAgreementsList pDemo 19875 "" sheetDemo = Except.ok [agDemo]
  ∧ agDemo.email = "" := ⟨rfl, rfl⟩

/-- C3 witness: a non-empty default recipient makes the email of the same
extraction non-empty. -/
theorem email_default_fallback_witness :
    (Agreement.mk "Unnamed Agreement" 19875 "" "EXPIRES TODAY" "d@e.com" "").email ≠ "" :=
  (email_default_fallback pDemo 19875 "d@e.com" sheetDemo
    [Agreement.mk "Unnamed Agreement" 19875 "" "EXPIRES TODAY" "d@e.com" ""]
    (by decide) rfl _ (List.mem_singleton.2 rfl)).1

theorem head?_dropWhile_false {α : Type} (p : α → Bool) (l : List α) (c : α)
    (h : (l.dropWhile p).head? = some c) : p c = false := by
  induction l with
  | nil => cases h
  | cons x t ih =>
    cases hx : p x with
    | true => rw [List.dropWhile_cons_of_pos hx] at h; exact ih h
    | false =>
      rw [List.dropWhile_cons_of_neg (by simp [hx])] at h
      simp only [List.head?_cons, Option.some.injEq] at h
      rw [← h]
      exact hx

theorem getLast?_suffix_some {α : Type} {s l : List α} {c : α} (hs : s <:+ l)
    (h : s.getLast? = some c) : l.getLast? = some c := by
  obtain ⟨t, rfl⟩ := hs
  rw [List.getLast?_append_of_ne_nil]
  · exact h
  · intro hnil
    rw [hnil] at h
    cases h

theorem pyStripL_head_not_space (l : List Char) (c : Char)
    (h : (pyStripL l).head? = some c) : isPySpace c = false := by
  unfold pyStripL at h
  rw [List.head?_reverse] at h
  have h2 : ((l.dropWhile isPySpace).reverse).getLast? = some c :=
    getLast?_suffix_some (List.dropWhile_suffix _) h
  rw [List.getLast?_reverse] at h2
  exact head?_dropWhile_false _ _ _ h2

theorem pyStripL_getLast_not_space (l : List Char) (c : Char)
    (h : (pyStripL l).getLast? = some c) : isPySpace c = false := by
  unfold pyStripL at h
  rw [List.getLast?_reverse] at h
  exact head?_dropWhile_false _ _ _ h

/-- Concrete date parser mapping the cell "x" to day 7. -/
def pX : String → Option Int := fun s => if s = "x" then some 7 else none

/-- Sheet whose email cell carries a trailing CRLF. -/
def sheetCRLF : Sheet := ⟨["Email", "Expiry"], [["a@b.com\r\n", "x"]]⟩

/-- The Agreement extracted from sheetCRLF. -/
def agCRLF : Agreement :=
  { file := "a@b.com", expiry_date := 7, path := ""
    status := "Upcoming", email := "a@b.com", name := "" }

/-- C4 (amended): the resolved email is the stripped cell, and stripping
removes leading and trailing whitespace (so a first or last CR or LF never
survives); the raw value with a trailing CRLF normalizes with the CRLF
removed. Embedded control characters are not touched. -/
theorem email_strip_bounds (s : String) :
    (∀ c : Char, (pyStrip s).data.head? = some c → (c ≠ '\r' ∧ c ≠ '\n'))
  ∧ (∀ c : Char, (pyStrip s).data.getLast? = some c → (c ≠ '\r' ∧ c ≠ '\n'))
  ∧ pyStrip "a@b.com\r\n" = "a@b.com"
  ∧ makeAgreementsList pX 0 "d@e.com" sheetCRLF = Except.ok [agCRLF]
  ∧ agCRLF.email = "a@b.com" := by
  refine ⟨fun c h => ?_, fun c h => ?_, rfl, rfl, rfl⟩
  · have h1 := pyStripL_head_not_space s.data c h
    constructor
    · intro e; rw [e] at h1; exact absurd h1 (by decide)
    · intro e; rw [e] at h1; exact absurd h1 (by decide)
  · have h1 := pyStripL_getLast_not_space s.data c h
    constructor
    · intro e; rw [e] at h1; exact absurd h1 (by decide)
    · intro e; rw [e] at h1; exact absurd h1 (by decide)

/-- C4 witness: the bound conjuncts evaluated on concrete strings. -/
theorem email_strip_bounds_witness :
    ('a' ≠ '\r' ∧ 'a' ≠ '\n') ∧ ('m' ≠ '\r' ∧ 'm' ≠ '\n') :=
  ⟨(email_strip_bounds " a@b ").1 'a' (by decide),
   (email_strip_bounds " a@b.com ").2.1 'm' (by decide)⟩

/-- Sheet whose email cell carries an embedded CR. -/
def sheetCR : Sheet := ⟨["Email", "Expiry"], [["a@\rb.com", "x"]]⟩

/-- The Agreement extracted from sheetCR: the embedded CR survives. -/
def agCR : Agreement :=
  { file := "a@\rb.com", expiry_date := 7, path := ""
    status := "Upcoming", email := "a@\rb.com", name := "" }

/-- C4 counterexample: an embedded carriage return in the raw cell is NOT
stripped; it reaches the resolved Agreement email. -/
theorem embedded_cr_counterexample :
    makeAgreementsList pX 0 "d@e.com" sheetCR = Except.ok [agCR]
  ∧ '\r' ∈ agCR.email.data := ⟨rfl, by decide⟩

/-- C5 (amended): the email role is resolved with the single keyword
"email": the chosen email column is the first column, in original order,
whose lowered name contains "email"; when no column name contains "email"
there is no email column (the keyword "contact" plays no part). -/
theorem email_role_keyword (cols : List String) :
    (emailCols cols).head? = cols.find? (fun c => containsTok c "email")
  ∧ ((∀ c ∈ cols, containsTok c "email" = false) → (emailCols cols).head? = none) := by
  constructor
  · unfold emailCols
    exact List.filter_head? _ cols
  · intro h
    unfold emailCols
    rw [List.filter_head? _ cols]
    exact List.find?_eq_none.2 (fun x hx => by simp [h x hx])

/-- C5 witness: a column list with a contact column and no email column
resolves no email role. -/
theorem email_role_keyword_witness : (emailCols ["Contact", "Renewal Due"]).head? = none :=
  (email_role_keyword ["Contact", "Renewal Due"]).2 (by decide)

/-- The column list of the C5 counterexample. -/
def cols5 : List String := ["Client Name", "Contact", "Renewal Due"]

/-- C5 counterexample: cols5 has a column containing "contact" and none
containing "email", yet the email role maps to no column at all, not to the
first contact column as the claim states. -/
theorem contact_not_email_counterexample :
    (∃ c ∈ cols5, containsTok c "contact" = true)
  ∧ (∀ c ∈ cols5, containsTok c "email" = false)
  ∧ (emailCols cols5).head? = none := by decide

/-- C6: when no column name contains any of the expiry tokens, extraction
fails with the fatal missing-required-column error (producing no
Agreements); when some column matches, the first matching column in original
order becomes the expiry column and extraction proceeds to a normal result. -/
theorem missing_expiry_fatal (p : String → Option Int) (today : Int) (rec : String)
    (df : Sheet) :
    ((∀ c ∈ df.columns, isExpiryCol c = false) →
       makeAgreementsList p today rec df = Except.error "No expiry-like column found.")
  ∧ (∀ c : String, df.columns.find? isExpiryCol = some c →
       makeAgreementsList p today rec df = Except.ok (df.rows.filterMap
         (extractRow p today rec df.columns c (emailCols df.columns).head?
           (fileCols df.columns).head? (pathCols df.columns).head?
           (nameCols df.columns).head?))) := by
  constructor
  · intro h
    apply makeAgreementsList_eq_error
    unfold expiryCols
    rw [List.filter_head? _ df.columns]
    exact List.find?_eq_none.2 (fun x hx => by simp [h x hx])
  · intro c hc
    apply makeAgreementsList_eq_ok
    unfold expiryCols
    rw [List.filter_head? _ df.columns]
    exact hc

/-- C6 witness: a sheet with no expiry-like column errors; one whose only
column contains "due" proceeds. -/
theorem missing_expiry_fatal_witness :
    makeAgreementsList pX 0 "" ⟨["Alpha", "Beta"], []⟩
      = Except.error "No expiry-like column found."
  ∧ makeAgreementsList pX 0 "" ⟨["Renewal Due"], []⟩ = Except.ok [] :=
  ⟨(missing_expiry_fatal pX 0 "" ⟨["Alpha", "Beta"], []⟩).1 (by decide),
   (missing_expiry_fatal pX 0 "" ⟨["Renewal Due"], []⟩).2 "Renewal Due" (by decide)⟩

/-- C7: once an expiry column is chosen, extraction always returns a normal
result whatever the parser does on each row; every returned Agreement
carries the successfully parsed expiry of some row of the sheet; and the
expiry dates of the result are exactly the parse successes of the rows, in
original row order, with unparseable rows skipped. -/
theorem bad_dates_skipped (p : String → Option Int) (today : Int) (rec : String)
    (df : Sheet) (c : String) (hc : (expiryCols df.columns).head? = some c) :
    (∃ ags, makeAgreementsList p today rec df = Except.ok ags)
  ∧ ∀ ags, makeAgreementsList p today rec df = Except.ok ags →
      ((∀ a ∈ ags, ∃ row ∈ df.rows, p (rowGet df.columns row c) = some a.expiry_date)
       ∧ ags.map Agreement.expiry_date
           = df.rows.filterMap (fun r => p (rowGet df.columns r c))) := by
  have hok := makeAgreementsList_eq_ok p today rec df c hc
  constructor
  · exact ⟨_, hok⟩
  · intro ags h
    rw [hok] at h
    injection h with hags
    subst hags
    constructor
    · intro a ha
      obtain ⟨row, hrow, hex⟩ := List.mem_filterMap.1 ha
      refine ⟨row, hrow, ?_⟩
      unfold extractRow at hex
      cases hp : p (rowGet df.columns row c) with
      | none => rw [hp] at hex; cases hex
      | some dt =>
        rw [hp] at hex
        injection hex with hba
        rw [← hba, expiry_buildAgreement]
    · rw [List.map_filterMap]
      congr 1
      funext r
      cases hp : p (rowGet df.columns r c) with
      | none => simp [extractRow, hp]
      | some dt => simp [extractRow, hp, expiry_buildAgreement]

/-- The C7 witness sheet: three rows, the middle one unparseable. -/
def df7 : Sheet := ⟨["Expiry"], [["ok1"], ["bad"], ["ok2"]]⟩

/-- The C7 witness parser. -/
def p7 : String → Option Int :=
  fun s => if s = "ok1" then some 1 else if s = "ok2" then some 9 else none

/-- The two Agreements extracted from df7. -/
def ags7 : List Agreement :=
  [{ file := "Unnamed Agreement", expiry_date := 1, path := ""
     status := "Upcoming", email := "", name := "" },
   { file := "Unnamed Agreement", expiry_date := 9, path := ""
     status := "Upcoming", email := "", name := "" }]

/-- C7 witness: the bad middle row is skipped and the expiry dates come out
in original row order. -/
theorem bad_dates_skipped_witness :
    ags7.map Agreement.expiry_date
      = df7.rows.filterMap (fun r => p7 (rowGet df7.columns r "Expiry")) :=
  ((bad_dates_skipped p7 0 "" df7 "Expiry" (by decide)).2 ags7 rfl).2

theorem scanHeader_first (l : List (List String)) :
    ∀ i : Nat, i < l.length → isHeaderRow (l.getD i []) = true →
      (∀ j, j < i → isHeaderRow (l.getD j []) = false) → scanHeader l = some i := by
  induction l with
  | nil =>
    intro i hi
    exact absurd hi (by simp)
  | cons r t ih =>
    intro i hi hp hmin
    cases i with
    | zero =>
      have hp0 : isHeaderRow r = true := hp
      simp only [scanHeader]
      rw [if_pos hp0]
    | succ i' =>
      have h0 : isHeaderRow r = false := hmin 0 (Nat.succ_pos _)
      simp only [scanHeader]
      rw [if_neg (by simp [h0])]
      have ht := ih i' (by simpa using hi) hp (fun j hj => hmin (j + 1) (by omega))
      rw [ht]
      rfl

theorem scanHeader_none (l : List (List String))
    (h : ∀ i, i < l.length → isHeaderRow (l.getD i []) = false) : scanHeader l = none := by
  induction l with
  | nil => rfl
  | cons r t ih =>
    have h0 : isHeaderRow r = false := h 0 (by simp)
    simp only [scanHeader]
    rw [if_neg (by simp [h0])]
    rw [ih (fun i hi => h (i + 1) (by simpa using Nat.succ_lt_succ hi))]
    rfl

/-- The C8 demonstration table: three unrelated leading rows, then a header. -/
def demoTable : List (List String) :=
  [["Quarterly Report"], ["Prepared By Ops"], ["Internal Use Only"], ["Expiry Date", "Owner"]]

/-- C8: the header locator scans at most the 50 leading rows, returns the
first index whose stripped, lowered, space-joined cells contain a search
token, falls back to index 0 when no scanned row matches, and on the
demonstration table with unrelated rows 0-2 and a header at row 3 it
returns 3. -/
theorem header_scan_spec :
    (∀ (raw : List (List String)) (i : Nat), i < min 50 raw.length →
        isHeaderRow (raw.getD i []) = true →
        (∀ j, j < i → isHeaderRow (raw.getD j []) = false) →
        detectHeaderIdx raw = i)
  ∧ (∀ raw : List (List String),
        (∀ i, i < min 50 raw.length → isHeaderRow (raw.getD i []) = false) →
        detectHeaderIdx raw = 0)
  ∧ (∀ raw : List (List String), detectHeaderIdx raw = detectHeaderIdx (raw.take 50))
  ∧ detectHeaderIdx demoTable = 3 := by
  have hgetD : ∀ (raw : List (List String)) (i : Nat), i < 50 →
      (raw.take 50).getD i [] = raw.getD i [] := by
    intro raw i hi
    simp only [List.getD_eq_getElem?_getD, List.getElem?_take_of_lt hi]
  refine ⟨fun raw i hi hp hmin => ?_, fun raw h => ?_, fun raw => ?_, by decide⟩
  · have hi50 : i < 50 := lt_of_lt_of_le hi (min_le_left _ _)
    have hlen : i < (raw.take 50).length := by
      rw [List.length_take]
      exact hi
    have hs := scanHeader_first (raw.take 50) i hlen
      (by rw [hgetD raw i hi50]; exact hp)
      (fun j hj => by
        rw [hgetD raw j (lt_trans hj hi50)]
        exact hmin j hj)
    unfold detectHeaderIdx
    rw [hs]
  · have hs := scanHeader_none (raw.take 50) (fun i hi => by
      rw [List.length_take] at hi
      rw [hgetD raw i (lt_of_lt_of_le hi (min_le_left _ _))]
      exact h i hi)
    unfold detectHeaderIdx
    rw [hs]
  · unfold detectHeaderIdx
    rw [List.take_take, min_self]

/-- C8 witness: the general first-match clause applied to the demonstration
table at index 3. -/
theorem header_scan_spec_witness : detectHeaderIdx demoTable = 3 :=
  header_scan_spec.1 demoTable 3 (by decide) (by decide) (by decide)

end Renewal
